import Mathlib

/-!
Verification of the ajax-form submission pipeline and payload assembly engine.

The source is a single JavaScript module (an `AjaxForm` class plus the helper
functions `getQuerystring`, `setNestedValue` and `deepFilterArrays`).  This file
shallowly embeds the parts of that module that the claims are about:

* `JVal` models JavaScript runtime values flowing through payload assembly;
* `deepFilterArrays`, `setNestedValue` are the module-level helpers;
* `Field` models a form input element with the attributes the module reads;
* `handleValidationRun` models the private method `#handleValidation`
  (without its middleware stage, i.e. with the identity chain);
* `getElementValue`, `groupPhase`, `withMerge`, `writePhase` and
  `generateDataAndProps` model the private method `#generateDataAndProps`;
* `handleBeforeEffective`, `handleRequestEffective`, `handleResponse`,
  `getError`, `handleError` and `submitResult` model the pipeline stages.

Helpers imported from the external js-common package are not part of the
repository; each such helper carries a doc comment starting with
"Modelled from the spec:".
-/

set_option maxRecDepth 8192

namespace AjaxFormVerif

/-- JavaScript runtime values appearing in the payload model: `undefined`,
`null`, primitives, opaque host leaves (File and Blob handles, Date objects),
sequences, and string-keyed mappings kept as insertion-ordered association
lists (JavaScript object key order for the non-numeric keys used here). -/
inductive JVal : Type where
  | undefined : JVal
  | nullv : JVal
  | str : String → JVal
  | num : Int → JVal
  | boolv : Bool → JVal
  | file : Nat → JVal
  | blob : Nat → JVal
  | date : Int → JVal
  | arr : List JVal → JVal
  | obj : List (String × JVal) → JVal

/-- Modelled from the spec: js-common `hasValue` — a value is present unless it
is `undefined` or `null` (the spec's "absent entries"). -/
def hasValue : JVal → Bool
  | .undefined => false
  | .nullv => false
  | _ => true

mutual
/-- The module-level helper `deepFilterArrays`: `File`/`Blob`/`Date` instances
are returned untouched, arrays are filtered to drop absent entries and then
cleaned element-wise, plain objects are cleaned value-wise, and every other
value is returned as-is. -/
def deepFilterArrays : JVal → JVal
  | .arr xs => .arr (deepFilterList xs)
  | .obj kvs => .obj (deepFilterEntries kvs)
  | v => v

/-- `obj.filter(hasValue).map(deepFilterArrays)` on a sequence. -/
def deepFilterList : List JVal → List JVal
  | [] => []
  | x :: xs =>
    if hasValue x then deepFilterArrays x :: deepFilterList xs else deepFilterList xs

/-- Cleaning an object entry list value-by-value. -/
def deepFilterEntries : List (String × JVal) → List (String × JVal)
  | [] => []
  | kv :: rest => (kv.1, deepFilterArrays kv.2) :: deepFilterEntries rest
end

/-! ### Association-list primitives for JavaScript objects -/

/-- First-match lookup in an insertion-ordered association list (JavaScript
object property read; keys are unique in lists built by the model). -/
def assocLookup {α : Type} : List (String × α) → String → Option α
  | [], _ => none
  | (k, v) :: rest, key => if k = key then some v else assocLookup rest key

/-- JavaScript object property write: overwrite in place when the key exists
(property order is kept), append otherwise. -/
def assocSet {α : Type} : List (String × α) → String → α → List (String × α)
  | [], key, v => [(key, v)]
  | (k, w) :: rest, key, v =>
    if k = key then (k, v) :: rest else (k, w) :: assocSet rest key v

/-- The canonical numeric reading of a property key (the characters are all
decimal digits), as a kernel-reducible stand-in for `String.toNat?`. -/
def strToNat? (s : String) : Option Nat :=
  if s.toList ≠ [] ∧ s.toList.all Char.isDigit then
    some (s.toList.foldl (fun n c => n * 10 + (c.toNat - 48)) 0)
  else none

/-- Property read `container[key]` as used on the walk inside `setNestedValue`
and in optional chains such as `result?.request`: object lookup by key, array
lookup by numeric index, `undefined` everywhere else (opaque host objects are
not modelled as indexable containers). -/
def getKey : JVal → String → JVal
  | .obj kvs, k => (assocLookup kvs k).getD .undefined
  | .arr xs, k =>
    match strToNat? k with
    | some i => xs.getD i .undefined
    | none => .undefined
  | _, _ => .undefined

/-- Array write at a numeric index, padding holes with `undefined` (JavaScript
sparse-array reads report `undefined` at the holes). -/
def listSetPad : List JVal → Nat → JVal → List JVal
  | [], 0, v => [v]
  | [], n + 1, v => .undefined :: listSetPad [] n v
  | _ :: xs, 0, v => v :: xs
  | x :: xs, n + 1, v => x :: listSetPad xs n v

/-- Property write `container[key] = v`: objects update-or-append preserving
insertion position, arrays write at a numeric index; a non-numeric key on an
array and a write to a non-container are outside the model and leave the
value unchanged. -/
def setKey : JVal → String → JVal → JVal
  | .obj kvs, k, v => .obj (assocSet kvs k v)
  | .arr xs, k, v =>
    match strToNat? k with
    | some i => .arr (listSetPad xs i v)
    | none => .arr xs
  | o, _, _ => o

/-! ### setNestedValue -/

/-- The reference-type test `Object(acc[key]) === acc[key]` with which
`setNestedValue` decides whether to descend into an existing container
(arrays and plain objects here; opaque host objects are not modelled as
containers). -/
def isRef : JVal → Bool
  | .arr _ => true
  | .obj _ => true
  | _ => false

/-- A separator for the segment regex `[^.[\]]+` of `setNestedValue`: dot or a
square bracket. -/
def isPathSep (c : Char) : Bool := c = '.' ∨ c = '[' ∨ c = ']'

/-- Accumulating scan producing the maximal runs of non-separator characters. -/
def parsePathAux : List Char → List Char → List String
  | [], acc => if acc.isEmpty then [] else [String.mk acc.reverse]
  | c :: cs, acc =>
    if isPathSep c then
      if acc.isEmpty then parsePathAux cs []
      else String.mk acc.reverse :: parsePathAux cs []
    else parsePathAux cs (c :: acc)

/-- `name.toString().match(/[^.[\]]+/g) || []`: the dotted/bracketed key string
decomposed into its path segments. -/
def parsePath (s : String) : List String := parsePathAux s.toList []

/-- Modelled from the spec: js-common `isInteger` applied to a path segment —
true when the segment is numeric (the spec's "when the next segment is
numeric"). -/
def isIntegerStr (s : String) : Bool := (strToNat? s).isSome

/-- Modelled from the spec: js-common `isObject` — a plain-object (mapping)
test; arrays and primitives are not mappings. -/
def isObjectJ : JVal → Bool
  | .obj _ => true
  | _ => false

/-- Whether a value is a sequence container. -/
def isArrJ : JVal → Bool
  | .arr _ => true
  | _ => false

/-- The walk of `setNestedValue`: `keys.slice(0, -1).reduce(...)` descending
into existing reference-typed children and creating a fresh `[]` or `{}`
otherwise, then the final indexed assignment.  An empty segment list makes the
final read `keys[keys.length - 1]` yield `undefined`, which JavaScript coerces
to the property key "undefined". -/
def setNestedGo : JVal → List String → JVal → JVal
  | root, [], v => setKey root "undefined" v
  | root, [k], v => setKey root k v
  | root, k :: k2 :: rest, v =>
    let child := getKey root k
    if isRef child then setKey root k (setNestedGo child (k2 :: rest) v)
    else
      setKey root k
        (setNestedGo (if isIntegerStr k2 then .arr [] else .obj []) (k2 :: rest) v)

/-- The module-level helper `setNestedValue(obj, name, value)`: no write at all
when the value is absent or the target is not a mapping; otherwise the name is
split into path segments and assigned along the walk. -/
def setNestedValue (root : JVal) (name : String) (value : JVal) : JVal :=
  if ¬ hasValue value ∨ ¬ isObjectJ root then root
  else setNestedGo root (parsePath name) value

/-! ### Form fields -/

/-- Modelled from the spec: js-common `isNotBlank` — a string with at least one
non-whitespace character (the spec's "non-blank"). -/
def isNotBlank (s : String) : Bool := s.toList.any (fun c => !c.isWhitespace)

/-- A form input element carrying exactly the state and attributes the module
reads: name, value, disabled and required state, the validation-group dataset
attribute, the current custom validity message, an abstract bit `nativeOk` for
the remaining native constraints (pattern and type checks), the element type
with its optional dataset override, checked state, selected file handles and
options, and the dataset-driven destination (`to`) and source (`from`)
declarations. -/
structure Field where
  name : String := ""
  value : String := ""
  disabled : Bool := false
  required : Bool := false
  vgroup : Option String := none
  custom : String := ""
  nativeOk : Bool := true
  etype : String := "text"
  dtype : Option String := none
  checked : Bool := false
  multiple : Bool := false
  files : List Nat := []
  selectedOptions : List String := []
  toType : Option String := none
  fromType : Option String := none
  fromPattern : Option String := none
deriving Repr, DecidableEq

/-- The base filter of `#queryFormInput`: enabled elements with a non-blank
name (`!el.disabled && isNotBlank(el.name)`). -/
def inputBase (f : Field) : Bool := !f.disabled && isNotBlank f.name

/-- `#queryFormInput(selector)` over the form's input collection: elements
passing the base filter and, when a selector is given, matching it.  CSS
selectors are modelled as predicates on the element state. -/
def queryFormInput (sel : Option (Field → Bool)) (fs : List Field) : List Field :=
  fs.filter (fun f =>
    inputBase f && (match sel with | none => true | some p => p f))

/-- The selector `[data-<prefix>-validation][required]` used to collect the
grouped inputs: the validation-group attribute is present and the element is
required. -/
def valSel (f : Field) : Bool := f.vgroup.isSome && f.required

/-- Membership of an element in the validation group named `g`, as collected
by `#queryFormInput` with the validation selector. -/
def groupMem (g : String) (f : Field) : Bool :=
  inputBase f && f.required && (f.vgroup == some g)

/-- `el.validity.valid`: invalid on a non-empty custom validity message, on a
failing required constraint (empty value on a text-like element, unchecked
checkbox or radio), or on a failing remaining native constraint (the abstract
`nativeOk` bit standing for pattern and type checks). -/
def validityValid (f : Field) : Bool :=
  (f.custom == "") && f.nativeOk &&
    (if f.etype == "checkbox" || f.etype == "radio" then !f.required || f.checked
     else !f.required || !(f.value == ""))

/-- JavaScript `Set.add` / first-occurrence object-key collection: append the
element unless already present. -/
def insertSet (l : List String) (x : String) : List String :=
  if x ∈ l then l else l ++ [x]

/-- The group names in first-occurrence order, as the keys of the `groups`
object built by the grouping `reduce`. -/
def groupNames (fs : List Field) : List String :=
  ((queryFormInput (some valSel) fs).filterMap (·.vgroup)).foldl insertSet []

/-- `input.setCustomValidity('')` applied to every grouped input during the
grouping `reduce`. -/
def clearGroupCustom (fs : List Field) : List Field :=
  fs.map (fun f => if inputBase f && valSel f then { f with custom := "" } else f)

/-- `AjaxForm.config.i18n?.validation?.[group] || group`: the configured
group-specific message, falling back (also on a falsy configured string) to
the group name itself. -/
def groupMsg (i18nValidation : Option (List (String × String))) (g : String) : String :=
  match i18nValidation with
  | none => g
  | some l =>
    match assocLookup l g with
    | some m => if m = "" then g else m
    | none => g

/-- `inputs[0]?.setCustomValidity(msg)`: mark the first member of group `g`. -/
def markFirstCustom (g : String) (msg : String) : List Field → List Field
  | [] => []
  | f :: fs =>
    if groupMem g f then { f with custom := msg } :: fs
    else f :: markFirstCustom g msg fs

/-- Resolution of one validation group: when some member is non-blank every
blank member is disabled for this pass, otherwise the group's first member is
marked with the group-specific or generic message.  (Group membership is
recomputed on the current state; since each element carries exactly one group
attribute, the resolution of other groups never changes it.) -/
def resolveGroup (i18nValidation : Option (List (String × String)))
    (fs : List Field) (g : String) : List Field :=
  if (fs.filter (groupMem g)).any (fun f => isNotBlank f.value) then
    fs.map (fun f =>
      if groupMem g f && !(isNotBlank f.value) then { f with disabled := true } else f)
  else markFirstCustom g (groupMsg i18nValidation g) fs

/-- The `for (const [group, inputs] of objectEntries(groups))` loop. -/
def resolveGroups (i18nValidation : Option (List (String × String)))
    (fs : List Field) : List Field :=
  (groupNames fs).foldl (resolveGroup i18nValidation) fs

/-- The element states after grouping (which clears the grouped inputs' custom
validity) and group resolution. -/
def validationPhases (i18nValidation : Option (List (String × String)))
    (fs : List Field) : List Field :=
  resolveGroups i18nValidation (clearGroupCustom fs)

/-- The standard pass `this.#queryFormInput().forEach(el => {...})`: collect
the name of every element of the (freshly queried, hence enabled and named)
collection that fails native validity, and set `el.disabled = false` on the
elements of that same collection. -/
def standardPass (fs : List Field) : List Field × List String :=
  (fs.map (fun f => if inputBase f then { f with disabled := false } else f),
   ((queryFormInput none fs).filter (fun f => !validityValid f)).foldl
     (fun acc f => insertSet acc f.name) [])

/-- `#handleValidation` with the identity middleware chain (the spec: absence
of any declared identifier yields an identity chain): group resolution
followed by the standard validity pass, returning the final element states
and the collected set of invalid names (insertion-ordered, coalesced). -/
def handleValidationRun (i18nValidation : Option (List (String × String)))
    (fs : List Field) : List Field × List String :=
  standardPass (validationPhases i18nValidation fs)

/-! ### Payload assembly (`#generateDataAndProps`) -/

/-- Modelled from the spec: js-common `endsWith(name, '[]')` as destructured by
the grouping pass — whether the name carries the trailing array marker, and
the name with the marker stripped. -/
def endsWithBrackets (s : String) : Bool × String :=
  match s.toList.reverse with
  | ']' :: '[' :: rest => (true, String.mk rest.reverse)
  | _ => (false, s)

/-- An item held in a grouping bucket: a form element, or a raw value merged
from a side channel. -/
inductive EItem : Type where
  | elem : Field → EItem
  | raw : JVal → EItem

/-- A bucket entry: a single item, or the array accumulated for a repeated or
`[]`-suffixed key (`toArray(target[value]).push(el)`). -/
inductive Entry : Type where
  | one : EItem → Entry
  | many : List EItem → Entry

/-- JavaScript string coercion for values reaching a format pattern or a
property-key position. -/
def jvalToString : JVal → String
  | .str s => s
  | .num n => toString n
  | .boolv true => "true"
  | .boolv false => "false"
  | .nullv => "null"
  | .undefined => "undefined"
  | _ => "[object Object]"

/-- Placeholder interpolation over the pattern characters. -/
def interpolate : List Char → String → List Char
  | [], _ => []
  | '{' :: '0' :: '}' :: rest, v => v.toList ++ interpolate rest v
  | c :: rest, v => c :: interpolate rest v

/-- Modelled from the spec: js-common `formatString` — the raw value is
interpolated into the declared format pattern; with no pattern declared the
value passes through unchanged ("defaulting to the interpolated key
itself"). -/
def formatString (pattern : Option String) (v : JVal) : JVal :=
  match pattern with
  | none => v
  | some p => .str (String.mk (interpolate p.toList (jvalToString v)))

/-- The source-lookup tail of `#getElementValue`:
`getFrom?.[fromType]?.(key) ?? key` — no declared source kind, an unknown
source kind, or a nullish lookup result fall back to the interpolated key. -/
def applyFrom (getFrom : String → Option (JVal → JVal)) (fromType : Option String)
    (key : JVal) : JVal :=
  match fromType with
  | none => key
  | some t =>
    match getFrom t with
    | none => key
    | some fn => let r := fn key; if hasValue r then r else key

/-- The element type consulted by `#getElementValue`: the dataset `type`
override when present, else the element's own type. -/
def effType (f : Field) : String := f.dtype.getD f.etype

/-- `#getElementValue(el, getFrom)`: a non-element is returned as-is;
date-like kinds yield the parsed millisecond instant or `undefined` when
blank; file inputs yield the selected handle(s); multi-selects the selected
option values; a checkbox with a truthy value other than the generic marker
`on` yields that value when checked and `undefined` otherwise, and the
checked-state boolean in the remaining cases; a radio its value when checked;
any other kind the raw value.  A defined result of the latter three kinds is
then interpolated and resolved through the declared source lookup.
`parseDate` abstracts `new Date(value).getTime()`. -/
def getElementValue (parseDate : String → Int)
    (getFrom : String → Option (JVal → JVal)) : EItem → JVal
  | .raw v => v
  | .elem f =>
    let t := effType f
    if t = "month" ∨ t = "date" ∨ t = "datetime-local" then
      if isNotBlank f.value then .num (parseDate f.value) else .undefined
    else if t = "file" then
      if f.multiple then .arr (f.files.map .file)
      else
        match f.files with
        | [] => .undefined
        | id :: _ => .file id
    else if t = "select-multiple" then .arr (f.selectedOptions.map .str)
    else
      let result : JVal :=
        if t = "checkbox" then
          if f.value ≠ "on" ∧ f.value ≠ "" then
            (if f.checked then .str f.value else .undefined)
          else .boolv f.checked
        else if t = "radio" then (if f.checked then .str f.value else .undefined)
        else .str f.value
      match result with
      | .undefined => .undefined
      | r => applyFrom getFrom f.fromType (formatString f.fromPattern r)

/-- One JavaScript `flatMap` step: a callback result that is an array is
spliced, any other result contributes one element. -/
def flatMapSplice : JVal → List JVal
  | .arr ys => ys
  | v => [v]

/-- `elementIs(el[0], HTML_RADIO)`: the first accumulated item is a radio
element (false for a raw item or an empty accumulation). -/
def firstIsRadio : List EItem → Bool
  | .elem f :: _ => f.etype == "radio"
  | _ => false

/-- The value of one bucket entry: an accumulated array is flat-mapped through
`#getElementValue` and filtered for present values (collapsed to its first
member when the first element is a radio); a single item is extracted
directly. -/
def entryValue (parseDate : String → Int) (getFrom : String → Option (JVal → JVal)) :
    Entry → JVal
  | .one x => getElementValue parseDate getFrom x
  | .many xs =>
    let vals :=
      (((xs.map (getElementValue parseDate getFrom)).map flatMapSplice).flatten).filter hasValue
    if firstIsRadio xs then
      match vals with
      | [] => .undefined
      | v :: _ => v
    else .arr vals

/-- A named partition of the assembled body: key to entry. -/
abbrev BucketMap := List (String × Entry)

/-- The `groups` object: destination bucket name to bucket. -/
abbrev Groups := List (String × BucketMap)

/-- `toProps.type[0] ?? toProps?.value[0] ?? 'data'`: the destination bucket of
an element (the `to` dataset declaration collapsed to one optional name). -/
def toBucket (f : Field) : String := f.toType.getD "data"

/-- One step of the field-grouping `reduce`: an element is appended to an
existing entry under its (marker-stripped) name — turning it into an
accumulation — started as an accumulation when the name carries the `[]`
marker, and stored as a single entry otherwise. -/
def groupInsert (gs : Groups) (f : Field) : Groups :=
  let bucketName := toBucket f
  let ev := endsWithBrackets f.name
  let bucket := (assocLookup gs bucketName).getD []
  let entry : Entry :=
    match assocLookup bucket ev.2, ev.1 with
    | some (Entry.one x), _ => .many [x, .elem f]
    | some (Entry.many xs), _ => .many (xs ++ [.elem f])
    | none, true => .many [.elem f]
    | none, false => .one (.elem f)
  assocSet gs bucketName (assocSet bucket ev.2 entry)

/-- The field-grouping pass: every element of the (enabled, named) input
collection is inserted into its destination bucket. -/
def groupPhase (fs : List Field) : Groups :=
  (queryFormInput none fs).foldl groupInsert []

/-- The static side-channel inclusion table `WITH` in source order: `append`,
`page`, `querystring`, then the always-merged (`required`) `apply`. -/
def WITH : List (String × Bool) :=
  [("append", false), ("page", false), ("querystring", false), ("apply", true)]

/-- One side-channel data set (`this.#with[name]`): bucket name to key-value
pairs. -/
abbrev WithData := List (String × List (String × JVal))

/-- A raw side-channel value stored into a bucket: a JavaScript array is what
the extraction pass recognizes as an accumulated entry, anything else is a
single raw item. -/
def rawEntry : JVal → Entry
  | .arr vs => .many (vs.map .raw)
  | v => .one (.raw v)

/-- Merging one side-channel data set (`groups[toType][key] = value`). -/
def mergeWithData (gs : Groups) (d : WithData) : Groups :=
  d.foldl
    (fun gs bucketEntry =>
      bucketEntry.2.foldl
        (fun gs kv =>
          let bucket := (assocLookup gs bucketEntry.1).getD []
          assocSet gs bucketEntry.1 (assocSet bucket kv.1 (rawEntry kv.2)))
        gs)
    gs

/-- The side-channel merge of `#generateDataAndProps`: every requested (or
required) inclusion of the `WITH` table is merged, in table order, after
field grouping. -/
def withMerge (withState : List (String × WithData)) (withParams : List String)
    (gs : Groups) : Groups :=
  WITH.foldl
    (fun gs nr =>
      if nr.2 || withParams.contains nr.1 then
        mergeWithData gs ((assocLookup withState nr.1).getD [])
      else gs)
    gs

/-- The final write pass: per bucket, each entry's extracted value is assigned
at its key via `setNestedValue` into a fresh mapping, and the bucket mappings
are collected into the result object. -/
def writePhase (parseDate : String → Int) (getFrom : String → Option (JVal → JVal))
    (gs : Groups) : JVal :=
  .obj
    (gs.foldl
      (fun acc bucketPair =>
        let bucket :=
          bucketPair.2.foldl
            (fun b kv => setNestedValue b kv.1 (entryValue parseDate getFrom kv.2))
            (.obj [])
        assocSet acc bucketPair.1 bucket)
      [])

/-- `#generateDataAndProps(withParams)`: field grouping, then the side-channel
merge, then the final nested write, then the cleaning pass. -/
def generateDataAndProps (parseDate : String → Int)
    (getFrom : String → Option (JVal → JVal))
    (withState : List (String × WithData)) (fs : List Field)
    (withParams : List String) : JVal :=
  deepFilterArrays
    (writePhase parseDate getFrom (withMerge withState withParams (groupPhase fs)))

/-! ### Pipeline stages and error handling -/

/-- Modelled from the spec: the js-common `ERROR_VALIDATION` sentinel message
(the spec's `ValidationError`; only its distinctness from `ERROR_CONFIRM`
matters to the claims). -/
def ERROR_VALIDATION : String := "validation"

/-- Modelled from the spec: the js-common `ERROR_CONFIRM` sentinel message
(the spec's `ConfirmationError`). -/
def ERROR_CONFIRM : String := "confirm"

/-- Strict JavaScript equality of a value against a string constant. -/
def strEqJ : JVal → String → Bool
  | .str s, t => s == t
  | _, _ => false

/-- Strict JavaScript equality of a value against a number constant. -/
def numEqJ : JVal → Int → Bool
  | .num n, m => n == m
  | _, _ => false

/-- JavaScript truthiness for the values of the model. -/
def truthy : JVal → Bool
  | .undefined => false
  | .nullv => false
  | .str s => s ≠ ""
  | .num n => n ≠ 0
  | .boolv b => b
  | _ => true

/-- The `AjaxForm.config.i18n` lookup tables consulted by the default
`response.getError` and by the validation-group messages. -/
structure I18nConfig where
  code : Option (List (String × JVal)) := none
  status : Option (List (String × JVal)) := none
  validation : Option (List (String × String)) := none

/-- `table?.[key]` with JavaScript property-key coercion. -/
def i18nLookup (tbl : Option (List (String × JVal))) (key : JVal) : JVal :=
  match tbl with
  | none => .undefined
  | some l => (assocLookup l (jvalToString key)).getD .undefined

/-- The default parameter `(error = {})`: the empty object is substituted
exactly for `undefined`. -/
def defaultEmpty : JVal → JVal
  | .undefined => .obj []
  | v => v

/-- The default `response.getError`: the configured code-keyed message, else
the status-keyed message, else the error's own message, code, status, and
finally the raw error itself — each step skipped when its value is falsy
(a JavaScript or-chain), and an `undefined` error defaulted to `{}`. -/
def getError (i18n : Option I18nConfig) (error : JVal) : JVal :=
  let e := defaultEmpty error
  let c1 := i18nLookup (i18n.bind I18nConfig.code) (getKey e "code")
  if truthy c1 then c1
  else
    let c2 := i18nLookup (i18n.bind I18nConfig.status) (getKey e "status")
    if truthy c2 then c2
    else
      let m := getKey e "message"
      if truthy m then m
      else
        let c := getKey e "code"
        if truthy c then c
        else
          let s := getKey e "status"
          if truthy s then s else e

/-- Object spread `{ ...error }` (a primitive spreads to no properties; a
string's index properties are not modelled). -/
def spreadProps : JVal → List (String × JVal)
  | .obj kvs => kvs
  | _ => []

/-- `{ ...error, message: getError(error) }`: the decorated error. -/
def decorateError (i18n : Option I18nConfig) (error : JVal) : JVal :=
  .obj (assocSet (spreadProps error) "message" (getError i18n error))

/-- The settlement of `#handleError`: a silent resolution (validation
sentinel), a resolution after the UI reset (confirmation sentinel), or the
re-raise of the decorated — and possibly middleware-overridden — error. -/
inductive ErrorOutcome : Type where
  | resolvedSilent : ErrorOutcome
  | resolvedReset : ErrorOutcome
  | rethrown : JVal → ErrorOutcome

/-- `#handleError(error, opts)`: the two sentinel messages short-circuit
before any decoration; every other error is decorated with the resolved
message, run through the `error` middleware (whose non-nullish result replaces
it), and thrown again. -/
def handleError (i18n : Option I18nConfig) (errMw : JVal → JVal)
    (error : JVal) : ErrorOutcome :=
  if strEqJ (getKey error "message") ERROR_VALIDATION then .resolvedSilent
  else if strEqJ (getKey error "message") ERROR_CONFIRM then .resolvedReset
  else
    let decorated := decorateError i18n error
    let r := errMw decorated
    .rethrown (if hasValue r then r else decorated)

/-- The settlement of `submit()`: a fulfilled pipeline passes through; a
rejected pipeline is routed through `#handleError` — the sentinel outcomes
resolve the submission promise (with `undefined`), any other error is
re-raised so the promise rejects with the decorated error. -/
def submitResult (i18n : Option I18nConfig) (errMw : JVal → JVal)
    (pipeline : Except JVal JVal) : Except JVal JVal :=
  match pipeline with
  | .ok d => .ok d
  | .error e =>
    match handleError i18n errMw e with
    | .resolvedSilent => .ok .undefined
    | .resolvedReset => .ok .undefined
    | .rethrown r => .error r

/-- The middleware step of `#handleBefore`: the hook result's `request`
replaces the payload only when present with a value
(`hasValue(result?.request) ? result.request : request`). -/
def handleBeforeEffective (mwResult : JVal) (request : JVal) : JVal :=
  if hasValue (getKey mwResult "request") then getKey mwResult "request" else request

/-- The middleware step of `#handleRequest` (same override-or-pass-through
rule as the before stage). -/
def handleRequestEffective (mwResult : JVal) (request : JVal) : JVal :=
  if hasValue (getKey mwResult "request") then getKey mwResult "request" else request

/-- The middleware step of `#handleResponse`: the hook result's `response`
replaces the raw response only when present with a value. -/
def handleResponseEffective (mwResult : JVal) (response : JVal) : JVal :=
  if hasValue (getKey mwResult "response") then getKey mwResult "response" else response

/-- The configurable response adaptation triple. -/
structure ResponseConfig where
  checkResponse : JVal → Bool
  getData : JVal → JVal
  getPage : JVal → JVal

/-- The default `response` configuration: acceptance `code === 200`,
extractors `data.item` and `data.page`. -/
def defaultResponseConfig : ResponseConfig where
  checkResponse := fun res => numEqJ (getKey res "code") 200
  getData := fun res => getKey (getKey res "data") "item"
  getPage := fun res => getKey (getKey res "data") "page"

/-- `#handleResponse` up to its stage settlement: the response middleware may
override the raw response; when the (possibly overridden) response fails the
acceptance predicate the stage rejects with that raw value; otherwise the
canonical envelope is extracted and the stage resolves with it. -/
def handleResponse (cfg : ResponseConfig) (mw : JVal → JVal)
    (request response : JVal) : Except JVal JVal :=
  let r := mw (.obj [("request", request), ("response", response)])
  let result := handleResponseEffective r response
  if cfg.checkResponse result then
    .ok (.obj [("request", request), ("response", cfg.getData result),
               ("page", cfg.getPage result)])
  else .error result

/-- The per-element relation between the element states after a validation
phase and before it: the name is preserved and an element disabled before the
phase is still disabled after it (phases disable, never enable). -/
def phaseRel (a b : Field) : Prop :=
  a.name = b.name ∧ (b.disabled = true → a.disabled = true)

/-! ## Theorems -/

theorem hasValue_deepFilterArrays (v : JVal) :
    hasValue (deepFilterArrays v) = hasValue v := by
  cases v <;> simp [deepFilterArrays, hasValue]

mutual
theorem deepFilterArrays_idem_aux :
    ∀ v, deepFilterArrays (deepFilterArrays v) = deepFilterArrays v
  | .undefined => rfl
  | .nullv => rfl
  | .str _ => rfl
  | .num _ => rfl
  | .boolv _ => rfl
  | .file _ => rfl
  | .blob _ => rfl
  | .date _ => rfl
  | .arr xs => by
    simp only [deepFilterArrays, deepFilterList_idem_aux xs]
  | .obj kvs => by
    simp only [deepFilterArrays, deepFilterEntries_idem_aux kvs]

theorem deepFilterList_idem_aux :
    ∀ xs, deepFilterList (deepFilterList xs) = deepFilterList xs
  | [] => rfl
  | x :: xs => by
    by_cases h : hasValue x = true
    · simp only [deepFilterList, h, if_true, hasValue_deepFilterArrays,
        deepFilterArrays_idem_aux x, deepFilterList_idem_aux xs]
    · simp only [deepFilterList, h, if_false, Bool.false_eq_true,
        deepFilterList_idem_aux xs]

theorem deepFilterEntries_idem_aux :
    ∀ kvs, deepFilterEntries (deepFilterEntries kvs) = deepFilterEntries kvs
  | [] => rfl
  | kv :: rest => by
    simp only [deepFilterEntries, deepFilterArrays_idem_aux kv.2,
      deepFilterEntries_idem_aux rest]
end

theorem assocLookup_assocSet {α : Type} (l : List (String × α)) (k : String) (v : α) :
    assocLookup (assocSet l k v) k = some v := by
  induction l with
  | nil => simp [assocSet, assocLookup]
  | cons kv rest ih =>
    obtain ⟨k0, w⟩ := kv
    by_cases h : k0 = k
    · simp [assocSet, assocLookup, h]
    · simp [assocSet, assocLookup, h, ih]

theorem isArrJ_setNestedGo_arr (xs : List JVal) (path : List String) (v : JVal) :
    isArrJ (setNestedGo (.arr xs) path v) = true := by
  match path with
  | [] =>
    simp only [setNestedGo, setKey]
    rcases h : strToNat? "undefined" with _ | i <;> simp [isArrJ]
  | [k] =>
    simp only [setNestedGo, setKey]
    rcases h : strToNat? k with _ | i <;> simp [isArrJ]
  | k :: k2 :: rest =>
    simp only [setNestedGo]
    split <;>
      · simp only [setKey]
        rcases h : strToNat? k with _ | i <;> simp [isArrJ]

theorem isArrJ_setNestedGo_obj (kvs : List (String × JVal)) (path : List String) (v : JVal) :
    isArrJ (setNestedGo (.obj kvs) path v) = false := by
  match path with
  | [] => simp [setNestedGo, setKey, isArrJ]
  | [k] => simp [setNestedGo, setKey, isArrJ]
  | k :: k2 :: rest =>
    simp only [setNestedGo]
    split <;> simp [setKey, isArrJ]

/-- On a mapping root, the freshly created intermediate container at the head
segment is a sequence exactly when the following segment is numeric. -/
theorem setNestedGo_creates (kvs : List (String × JVal)) (k k2 : String)
    (rest : List String) (v : JVal) (h : isRef (getKey (.obj kvs) k) = false) :
    isArrJ (getKey (setNestedGo (.obj kvs) (k :: k2 :: rest) v) k) = isIntegerStr k2 := by
  have h' : isRef ((assocLookup kvs k).getD JVal.undefined) = false := by
    simpa [getKey] using h
  by_cases hk : isIntegerStr k2 = true
  · simp [setNestedGo, getKey, h', hk, setKey, assocLookup_assocSet,
      isArrJ_setNestedGo_arr]
  · simp only [Bool.not_eq_true] at hk
    simp [setNestedGo, getKey, h', hk, setKey, assocLookup_assocSet,
      isArrJ_setNestedGo_obj]

theorem phaseRel_refl (fs : List Field) : List.Forall₂ phaseRel fs fs := by
  induction fs with
  | nil => exact List.Forall₂.nil
  | cons f fs ih => exact List.Forall₂.cons ⟨rfl, id⟩ ih

theorem phaseRel_trans {l1 l2 l3 : List Field}
    (h1 : List.Forall₂ phaseRel l2 l1) (h2 : List.Forall₂ phaseRel l3 l2) :
    List.Forall₂ phaseRel l3 l1 := by
  induction h2 generalizing l1 with
  | nil => cases h1; exact List.Forall₂.nil
  | cons hab hrest ih =>
    cases h1 with
    | cons hbc hrest2 =>
      exact List.Forall₂.cons ⟨hab.1.trans hbc.1, fun h => hab.2 (hbc.2 h)⟩ (ih hrest2)

theorem phaseRel_map (u : Field → Field)
    (hu : ∀ f, (u f).name = f.name ∧ (f.disabled = true → (u f).disabled = true))
    (fs : List Field) : List.Forall₂ phaseRel (fs.map u) fs := by
  induction fs with
  | nil => exact List.Forall₂.nil
  | cons f fs ih => exact List.Forall₂.cons ⟨(hu f).1, (hu f).2⟩ ih

theorem phaseRel_markFirstCustom (g m : String) (fs : List Field) :
    List.Forall₂ phaseRel (markFirstCustom g m fs) fs := by
  induction fs with
  | nil => exact List.Forall₂.nil
  | cons f fs ih =>
    simp only [markFirstCustom]
    split
    · exact List.Forall₂.cons ⟨rfl, id⟩ (phaseRel_refl fs)
    · exact List.Forall₂.cons ⟨rfl, id⟩ ih

theorem phaseRel_clearGroupCustom (fs : List Field) :
    List.Forall₂ phaseRel (clearGroupCustom fs) fs := by
  refine phaseRel_map _ (fun f => ?_) fs
  constructor <;> split <;> simp

theorem phaseRel_resolveGroup (i18nV : Option (List (String × String)))
    (fs : List Field) (g : String) :
    List.Forall₂ phaseRel (resolveGroup i18nV fs g) fs := by
  simp only [resolveGroup]
  split
  · refine phaseRel_map _ (fun f => ?_) fs
    constructor <;> split <;> simp
  · exact phaseRel_markFirstCustom _ _ fs

theorem phaseRel_resolveGroups (i18nV : Option (List (String × String)))
    (names : List String) (fs : List Field) :
    List.Forall₂ phaseRel (names.foldl (resolveGroup i18nV) fs) fs := by
  induction names generalizing fs with
  | nil => exact phaseRel_refl fs
  | cons g names ih =>
    exact phaseRel_trans (phaseRel_resolveGroup i18nV fs g) (ih (resolveGroup i18nV fs g))

theorem phaseRel_validationPhases (i18nV : Option (List (String × String)))
    (fs : List Field) :
    List.Forall₂ phaseRel (validationPhases i18nV fs) fs := by
  exact phaseRel_trans (phaseRel_clearGroupCustom fs)
    (phaseRel_resolveGroups i18nV _ (clearGroupCustom fs))

theorem phaseRel_mem {l1 l2 : List Field} (h : List.Forall₂ phaseRel l1 l2)
    {f : Field} (hf : f ∈ l1) : ∃ g ∈ l2, phaseRel f g := by
  induction h with
  | nil => cases hf
  | cons hab hrest ih =>
    rcases List.mem_cons.mp hf with rfl | hf2
    · exact ⟨_, List.mem_cons_self _ _, hab⟩
    · rcases ih hf2 with ⟨g, hg, hrel⟩
      exact ⟨g, List.mem_cons_of_mem _ hg, hrel⟩

theorem mem_insertSetFold {x : String} :
    ∀ (l : List Field) (acc : List String),
      x ∈ l.foldl (fun acc f => insertSet acc f.name) acc →
      x ∈ acc ∨ ∃ f ∈ l, f.name = x := by
  intro l
  induction l with
  | nil => intro acc h; exact Or.inl h
  | cons f fs ih =>
    intro acc h
    rcases ih (insertSet acc f.name) h with h2 | h2
    · simp only [insertSet] at h2
      split at h2
      · exact Or.inl h2
      · rcases List.mem_append.mp h2 with h3 | h3
        · exact Or.inl h3
        · simp at h3
          exact Or.inr ⟨f, List.mem_cons_self _ _, h3.symm⟩
    · rcases h2 with ⟨g, hg, hgx⟩
      exact Or.inr ⟨g, List.mem_cons_of_mem _ hg, hgx⟩

theorem mem_queryFormInput {sel : Option (Field → Bool)} {fs : List Field} {f : Field}
    (h : f ∈ queryFormInput sel fs) : f ∈ fs ∧ inputBase f = true := by
  simp only [queryFormInput, List.mem_filter, Bool.and_eq_true] at h
  exact ⟨h.1, h.2.1⟩

theorem validation_names_from_enabled (i18nV : Option (List (String × String)))
    (fs : List Field) (n : String) (h : n ∈ (handleValidationRun i18nV fs).2) :
    ∃ f ∈ fs, f.name = n ∧ f.disabled = false ∧ isNotBlank f.name = true := by
  simp only [handleValidationRun, standardPass] at h
  rcases mem_insertSetFold _ [] h with h2 | h2
  · cases h2
  rcases h2 with ⟨f', hf', hname⟩
  have hmem := List.mem_of_mem_filter hf'
  have hq := mem_queryFormInput hmem
  rcases phaseRel_mem (phaseRel_validationPhases i18nV fs) hq.1 with ⟨g, hg, hrel⟩
  refine ⟨g, hg, hrel.1.symm.trans hname, ?_, ?_⟩
  · rcases hb : g.disabled with _ | _
    · rfl
    · have := hrel.2 hb
      simp [inputBase, this] at hq
  · have : isNotBlank f'.name = true := by
      have := hq.2
      simp [inputBase, Bool.and_eq_true] at this
      exact this.2
    rwa [hrel.1] at this

theorem queryFormInput_pre_filter (fs : List Field) :
    queryFormInput none (fs.filter inputBase) = queryFormInput none fs := by
  simp [queryFormInput, List.filter_filter]

theorem generate_pre_filter (pd : String → Int) (gf : String → Option (JVal → JVal))
    (w : List (String × WithData)) (fs : List Field) (params : List String) :
    generateDataAndProps pd gf w (fs.filter inputBase) params
      = generateDataAndProps pd gf w fs params := by
  simp only [generateDataAndProps, groupPhase, queryFormInput_pre_filter]

/-! ## Claim theorems -/

/-- C7: the final cleaning pass is idempotent — `deepFilterArrays` applied
twice equals `deepFilterArrays` applied once on every nested structure — and
it leaves file handles, binary blobs and date instants untouched. -/
theorem claim_C7 :
    (∀ v, deepFilterArrays (deepFilterArrays v) = deepFilterArrays v)
    ∧ (∀ id, deepFilterArrays (.file id) = .file id)
    ∧ (∀ id, deepFilterArrays (.blob id) = .blob id)
    ∧ (∀ t, deepFilterArrays (.date t) = .date t) :=
  ⟨deepFilterArrays_idem_aux, fun _ => rfl, fun _ => rfl, fun _ => rfl⟩

/-- C8: nested path assignment decomposes the key string into segments
(`user.name` to `user`, `name`; `tags[]` to `tags`), performs no write at all
when the value is absent, creates a missing intermediate container as a
sequence exactly when the next segment is numeric (a mapping otherwise), and
on the claim's two examples assembles `user.name = "Ann"` to
`{data: {user: {name: "Ann"}}}` and `tags[]` with values `x`, `y` to
`{data: {tags: ["x", "y"]}}`. -/
theorem claim_C8 :
    (∀ root name v, hasValue v = false → setNestedValue root name v = root)
    ∧ parsePath "user.name" = ["user", "name"]
    ∧ parsePath "tags[]" = ["tags"]
    ∧ parsePath "a.b[0].c" = ["a", "b", "0", "c"]
    ∧ (∀ kvs k k2 rest v, isRef (getKey (.obj kvs) k) = false →
        isArrJ (getKey (setNestedGo (.obj kvs) (k :: k2 :: rest) v) k) = isIntegerStr k2)
    ∧ (∀ (pd : String → Int) (gf : String → Option (JVal → JVal)),
        generateDataAndProps pd gf [] [{ name := "user.name", value := "Ann" }] []
          = .obj [("data", .obj [("user", .obj [("name", .str "Ann")])])])
    ∧ (∀ (pd : String → Int) (gf : String → Option (JVal → JVal)),
        generateDataAndProps pd gf []
          [{ name := "tags[]", value := "x" }, { name := "tags[]", value := "y" }] []
          = .obj [("data", .obj [("tags", .arr [.str "x", .str "y"])])]) := by
  refine ⟨?_, rfl, rfl, rfl, setNestedGo_creates, fun _ _ => rfl, fun _ _ => rfl⟩
  intro root name v h
  simp [setNestedValue, h]

/-- C8 witness: the skip-on-absent and container-creation conjuncts applied at
concrete inputs. -/
theorem claim_C8_witness :
    setNestedValue (.obj [("k", .str "v")]) "a.b" .undefined = .obj [("k", .str "v")]
    ∧ isArrJ (getKey (setNestedGo (.obj []) ["a", "0"] (.str "x")) "a") = isIntegerStr "0" := by
  refine ⟨claim_C8.1 _ _ _ rfl, (claim_C8.2.2.2.2.1) [] "a" "0" [] (.str "x") rfl⟩

/-- C4: the side-channel merge runs after field grouping and before the final
write: `generateDataAndProps` is the write pass applied to the merged groups
of the grouping pass; a merged side-channel pair overwrites whatever entry the
bucket held at that key; the required `apply` channel merges even when nothing
is requested; and concretely a field named `k` is overwritten by the applied
side-channel value at `data.k` in the assembled body. -/
theorem claim_C4 :
    (∀ (pd : String → Int) (gf : String → Option (JVal → JVal)) w fs params,
      generateDataAndProps pd gf w fs params
        = deepFilterArrays (writePhase pd gf (withMerge w params (groupPhase fs))))
    ∧ (∀ (gs : Groups) b k v,
        assocLookup ((assocLookup (mergeWithData gs [(b, [(k, v)])]) b).getD []) k
          = some (rawEntry v))
    ∧ (∀ (d : WithData) (gs : Groups), withMerge [("apply", d)] [] gs = mergeWithData gs d)
    ∧ (∀ (pd : String → Int) (gf : String → Option (JVal → JVal)),
        generateDataAndProps pd gf [("apply", [("data", [("k", .str "side")])])]
          [{ name := "k", value := "fieldval" }] []
          = .obj [("data", .obj [("k", .str "side")])]) := by
  refine ⟨fun _ _ _ _ _ => rfl, ?_, fun _ _ => rfl, fun _ _ => rfl⟩
  intro gs b k v
  simp [mergeWithData, assocLookup_assocSet]

/-- C6 (counterexample to the claim as stated): a checked checkbox whose raw
value is the empty string — which is not the generic affirmative marker `on` —
is extracted as the boolean checked state, not as its declared (empty) value:
the code folds every falsy raw value into the marker branch. -/
theorem claim_C6_counterexample :
    getElementValue (fun _ => 0) (fun _ => none)
      (.elem { name := "cb", value := "", etype := "checkbox", checked := true })
      = .boolv true
    ∧ JVal.boolv true ≠ JVal.str ""
    ∧ "" ≠ "on" := by
  refine ⟨rfl, fun h => JVal.noConfusion h, by decide⟩

/-- C6 (amended): for a checkbox field with no source lookup declared, the
extracted value is the boolean checked state when the raw value is the generic
affirmative marker `on` or empty, and otherwise the declared value when
checked and `undefined` (omitted) when unchecked; concretely, an unchecked
checkbox with declared value `yes` is omitted from the assembled body, a
checked one yields `"yes"`, and a checked generic checkbox yields boolean
`true`. -/
theorem claim_C6 :
    (∀ (pd : String → Int) (gf : String → Option (JVal → JVal)) (f : Field),
      effType f = "checkbox" → f.fromType = none → f.fromPattern = none →
      getElementValue pd gf (.elem f)
        = if f.value ≠ "on" ∧ f.value ≠ "" then
            (if f.checked then .str f.value else .undefined)
          else .boolv f.checked)
    ∧ (∀ (pd : String → Int) (gf : String → Option (JVal → JVal)),
        generateDataAndProps pd gf []
          [{ name := "cb", value := "yes", etype := "checkbox", checked := false }] []
          = .obj [("data", .obj [])])
    ∧ (∀ (pd : String → Int) (gf : String → Option (JVal → JVal)),
        generateDataAndProps pd gf []
          [{ name := "cb", value := "yes", etype := "checkbox", checked := true }] []
          = .obj [("data", .obj [("cb", .str "yes")])])
    ∧ (∀ (pd : String → Int) (gf : String → Option (JVal → JVal)),
        generateDataAndProps pd gf []
          [{ name := "cb", value := "on", etype := "checkbox", checked := true }] []
          = .obj [("data", .obj [("cb", .boolv true)])]) := by
  refine ⟨?_, fun _ _ => rfl, fun _ _ => rfl, fun _ _ => rfl⟩
  intro pd gf f ht hft hfp
  simp only [getElementValue, ht, hft, hfp]
  by_cases hv : f.value ≠ "on" ∧ f.value ≠ ""
  · by_cases hc : f.checked = true
    · simp [hv, hc, applyFrom, formatString]
    · simp only [Bool.not_eq_true] at hc
      simp [hv, hc]
  · simp [hv, applyFrom, formatString]

/-- C6 witness: the amended extraction rule applied to a concrete checked
checkbox with declared value `yes`. -/
theorem claim_C6_witness :
    getElementValue (fun _ => 0) (fun _ => none)
      (.elem { name := "cb", value := "yes", etype := "checkbox", checked := true })
      = .str "yes" := by
  have h := claim_C6.1 (fun _ => 0) (fun _ => none)
    { name := "cb", value := "yes", etype := "checkbox", checked := true } rfl rfl rfl
  simpa using h

/-- C9: at the before, request and response stages the pipeline substitutes
the hook's partial override exactly when the corresponding key is present with
a value, and retains the original payload unchanged otherwise — the effective
payload is always one of the two, never a mix. -/
theorem claim_C9 :
    ∀ (mwResult original : JVal),
      ((hasValue (getKey mwResult "request") = true →
          handleBeforeEffective mwResult original = getKey mwResult "request"
          ∧ handleRequestEffective mwResult original = getKey mwResult "request")
        ∧ (hasValue (getKey mwResult "request") = false →
          handleBeforeEffective mwResult original = original
          ∧ handleRequestEffective mwResult original = original))
      ∧ ((hasValue (getKey mwResult "response") = true →
          handleResponseEffective mwResult original = getKey mwResult "response")
        ∧ (hasValue (getKey mwResult "response") = false →
          handleResponseEffective mwResult original = original))
      ∧ (handleBeforeEffective mwResult original = getKey mwResult "request"
          ∨ handleBeforeEffective mwResult original = original)
      ∧ (handleResponseEffective mwResult original = getKey mwResult "response"
          ∨ handleResponseEffective mwResult original = original) := by
  intro mwResult original
  refine ⟨⟨fun h => ⟨?_, ?_⟩, fun h => ⟨?_, ?_⟩⟩, ⟨fun h => ?_, fun h => ?_⟩, ?_, ?_⟩ <;>
    simp [handleBeforeEffective, handleRequestEffective, handleResponseEffective, *]
  · by_cases h : hasValue (getKey mwResult "request") = true <;>
      simp [handleBeforeEffective, h]
  · by_cases h : hasValue (getKey mwResult "response") = true <;>
      simp [handleResponseEffective, h]

/-- C9 witness: the override branch at a hook result carrying a `request` key
and the pass-through branch at a hook result without one. -/
theorem claim_C9_witness :
    handleBeforeEffective (.obj [("request", .str "o")]) (.str "orig") = .str "o"
    ∧ handleResponseEffective (.obj []) (.str "orig") = .str "orig" :=
  ⟨((claim_C9 (.obj [("request", .str "o")]) (.str "orig")).1.1 rfl).1,
   (claim_C9 (.obj []) (.str "orig")).2.1.2 rfl⟩

/-- C3: a (possibly middleware-overridden) response failing the acceptance
predicate rejects the response stage with that raw value itself; with the
default configuration a `code: 500` response is propagated raw — and differs
from the canonical envelope the extractor would have produced. -/
theorem claim_C3 :
    (∀ (cfg : ResponseConfig) (mw : JVal → JVal) (req resp : JVal),
      cfg.checkResponse
          (handleResponseEffective (mw (.obj [("request", req), ("response", resp)])) resp)
        = false →
      handleResponse cfg mw req resp
        = .error (handleResponseEffective (mw (.obj [("request", req), ("response", resp)])) resp))
    ∧ handleResponse defaultResponseConfig (fun v => v) (.str "q")
        (.obj [("code", .num 500), ("data", .obj [("item", .str "x")])])
        = .error (.obj [("code", .num 500), ("data", .obj [("item", .str "x")])])
    ∧ JVal.obj [("code", .num 500), ("data", .obj [("item", .str "x")])]
        ≠ defaultResponseConfig.getData
            (.obj [("code", .num 500), ("data", .obj [("item", .str "x")])]) := by
  refine ⟨?_, rfl, ?_⟩
  · intro cfg mw req resp h
    simp only [handleResponse, h, Bool.false_eq_true, if_false]
  · intro h
    exact JVal.noConfusion h

/-- C3 witness: the rejection rule applied at the default configuration, the
identity middleware and a concrete rejected response. -/
theorem claim_C3_witness :
    handleResponse defaultResponseConfig (fun v => v) (.str "q") (.obj [("code", .num 500)])
      = .error (.obj [("code", .num 500)]) :=
  claim_C3.1 defaultResponseConfig (fun v => v) (.str "q") (.obj [("code", .num 500)]) rfl

/-- C1 (code-bug evidence): for a satisfied validation group with `a`
non-blank and `b` blank, both enabled on entry, the pass leaves the invalid
set empty but returns with `b` still disabled: the restore loop iterates
`#queryFormInput()`, whose filter drops disabled elements, so the temporary
exemption is never reverted and `b`'s disabled state differs from its state
before the call. -/
theorem claim_C1 :
    (handleValidationRun none
      [{ name := "a", value := "x", required := true, vgroup := some "g" },
       { name := "b", value := "", required := true, vgroup := some "g" }]).2 = []
    ∧ ([{ name := "a", value := "x", required := true, vgroup := some "g" },
        { name := "b", value := "", required := true, vgroup := some "g" }] :
         List Field).map Field.disabled = [false, false]
    ∧ (handleValidationRun none
        [{ name := "a", value := "x", required := true, vgroup := some "g" },
         { name := "b", value := "", required := true, vgroup := some "g" }]).1.map
          Field.disabled = [false, true] :=
  ⟨by decide, by decide, by decide⟩

/-- C5 (counterexample to the claim as stated): with both group members empty
the invalid set the code collects is `["a", "b"]` — the blank second member
also fails native required validity — not exactly the group's first member. -/
theorem claim_C5_counterexample :
    (handleValidationRun none
      [{ name := "a", value := "", required := true, vgroup := some "g" },
       { name := "b", value := "", required := true, vgroup := some "g" }]).2 = ["a", "b"]
    ∧ (["a", "b"] : List String) ≠ ["a"] :=
  ⟨by decide, by decide⟩

/-- C5 (amended): for a validation group of two required fields `a` and `b`:
when `a` is non-blank and `b` blank, validate returns the empty set (so `b` is
not reported); when both values are empty, both members are reported invalid —
the first additionally marked with the group-specific or generic message — not
exactly the first member alone. -/
theorem claim_C5 (va vb : String) :
    (isNotBlank va = true → isNotBlank vb = false →
      (handleValidationRun none
        [{ name := "a", value := va, required := true, vgroup := some "g" },
         { name := "b", value := vb, required := true, vgroup := some "g" }]).2 = [])
    ∧ (va = "" → vb = "" →
      (handleValidationRun none
        [{ name := "a", value := va, required := true, vgroup := some "g" },
         { name := "b", value := vb, required := true, vgroup := some "g" }]).2 = ["a", "b"]
      ∧ (handleValidationRun none
        [{ name := "a", value := va, required := true, vgroup := some "g" },
         { name := "b", value := vb, required := true, vgroup := some "g" }]).1.map
          Field.custom = ["g", ""]) := by
  constructor
  · intro h1 h2
    have hne : va ≠ "" := by
      intro e
      subst e
      simp [isNotBlank] at h1
    have hva : (va == "") = false := beq_eq_false_iff_ne.mpr hne
    have hna : isNotBlank "a" = true := rfl
    have hnb : isNotBlank "b" = true := rfl
    simp [handleValidationRun, standardPass, validationPhases, resolveGroups,
      groupNames, clearGroupCustom, queryFormInput, inputBase, valSel,
      resolveGroup, groupMem, groupMsg, markFirstCustom, insertSet,
      validityValid, h1, h2, hva, hna, hnb, List.filter_cons, List.filter_nil]
    simp +decide [hva]
  · intro h1 h2
    subst h1
    subst h2
    exact ⟨by decide, by decide⟩

/-- C5 witness: the two branches applied at the concrete value pairs
(`"x"`, `""`) and (`""`, `""`). -/
theorem claim_C5_witness :
    (handleValidationRun none
      [{ name := "a", value := "x", required := true, vgroup := some "g" },
       { name := "b", value := "", required := true, vgroup := some "g" }]).2 = []
    ∧ (handleValidationRun none
      [{ name := "a", value := "", required := true, vgroup := some "g" },
       { name := "b", value := "", required := true, vgroup := some "g" }]).2 = ["a", "b"] :=
  ⟨(claim_C5 "x" "").1 (by decide) (by decide), ((claim_C5 "" "").2 rfl rfl).1⟩

/-- C2: at the Error stage, an error whose message is the validation sentinel
resolves the submission silently with no decoration; one whose message is the
confirmation sentinel resolves after the UI reset; every other error is
decorated with the message resolved by the precedence chain (code-keyed
lookup, status-keyed lookup, original message, code, status, raw error —
falsy steps skipped), optionally replaced by the error middleware, and
re-raised so the top-level submission promise rejects with it. -/
theorem claim_C2 :
    (∀ (i18n : Option I18nConfig) (mw : JVal → JVal) (e : JVal),
      strEqJ (getKey e "message") ERROR_VALIDATION = true →
      handleError i18n mw e = .resolvedSilent
        ∧ submitResult i18n mw (.error e) = .ok .undefined)
    ∧ (∀ (i18n : Option I18nConfig) (mw : JVal → JVal) (e : JVal),
      strEqJ (getKey e "message") ERROR_CONFIRM = true →
      handleError i18n mw e = .resolvedReset
        ∧ submitResult i18n mw (.error e) = .ok .undefined)
    ∧ (∀ (i18n : Option I18nConfig) (mw : JVal → JVal) (e : JVal),
      strEqJ (getKey e "message") ERROR_VALIDATION = false →
      strEqJ (getKey e "message") ERROR_CONFIRM = false →
      handleError i18n mw e
          = .rethrown (if hasValue (mw (decorateError i18n e)) then mw (decorateError i18n e)
                       else decorateError i18n e)
        ∧ submitResult i18n mw (.error e)
          = .error (if hasValue (mw (decorateError i18n e)) then mw (decorateError i18n e)
                    else decorateError i18n e)
        ∧ getKey (decorateError i18n e) "message" = getError i18n e)
    ∧ (∀ (i18n : Option I18nConfig) (e : JVal),
      (truthy (i18nLookup (i18n.bind I18nConfig.code) (getKey (defaultEmpty e) "code")) = true →
        getError i18n e
          = i18nLookup (i18n.bind I18nConfig.code) (getKey (defaultEmpty e) "code"))
      ∧ (truthy (i18nLookup (i18n.bind I18nConfig.code) (getKey (defaultEmpty e) "code")) = false →
         truthy (i18nLookup (i18n.bind I18nConfig.status) (getKey (defaultEmpty e) "status")) = true →
        getError i18n e
          = i18nLookup (i18n.bind I18nConfig.status) (getKey (defaultEmpty e) "status"))
      ∧ (truthy (i18nLookup (i18n.bind I18nConfig.code) (getKey (defaultEmpty e) "code")) = false →
         truthy (i18nLookup (i18n.bind I18nConfig.status) (getKey (defaultEmpty e) "status")) = false →
         truthy (getKey (defaultEmpty e) "message") = true →
        getError i18n e = getKey (defaultEmpty e) "message")
      ∧ (truthy (i18nLookup (i18n.bind I18nConfig.code) (getKey (defaultEmpty e) "code")) = false →
         truthy (i18nLookup (i18n.bind I18nConfig.status) (getKey (defaultEmpty e) "status")) = false →
         truthy (getKey (defaultEmpty e) "message") = false →
         truthy (getKey (defaultEmpty e) "code") = true →
        getError i18n e = getKey (defaultEmpty e) "code")
      ∧ (truthy (i18nLookup (i18n.bind I18nConfig.code) (getKey (defaultEmpty e) "code")) = false →
         truthy (i18nLookup (i18n.bind I18nConfig.status) (getKey (defaultEmpty e) "status")) = false →
         truthy (getKey (defaultEmpty e) "message") = false →
         truthy (getKey (defaultEmpty e) "code") = false →
         truthy (getKey (defaultEmpty e) "status") = true →
        getError i18n e = getKey (defaultEmpty e) "status")
      ∧ (truthy (i18nLookup (i18n.bind I18nConfig.code) (getKey (defaultEmpty e) "code")) = false →
         truthy (i18nLookup (i18n.bind I18nConfig.status) (getKey (defaultEmpty e) "status")) = false →
         truthy (getKey (defaultEmpty e) "message") = false →
         truthy (getKey (defaultEmpty e) "code") = false →
         truthy (getKey (defaultEmpty e) "status") = false →
        getError i18n e = defaultEmpty e)) := by
  refine ⟨?_, ?_, ?_, ?_⟩
  · intro i18n mw e h
    constructor
    · simp [handleError, h]
    · simp [submitResult, handleError, h]
  · intro i18n mw e h
    have hv : strEqJ (getKey e "message") ERROR_VALIDATION = false := by
      rcases hk : getKey e "message" with _ | _ | s | n | b | fid | bid | t | xs | kvs <;>
        simp [strEqJ, ERROR_CONFIRM, ERROR_VALIDATION, hk] at h ⊢
      subst h
      decide
    constructor
    · simp [handleError, h, hv]
    · simp [submitResult, handleError, h, hv]
  · intro i18n mw e h1 h2
    refine ⟨?_, ?_, ?_⟩
    · simp [handleError, h1, h2]
    · simp [submitResult, handleError, h1, h2]
    · simp [decorateError, getKey, assocLookup_assocSet]
  · intro i18n e
    refine ⟨?_, ?_, ?_, ?_, ?_, ?_⟩ <;>
      · intros
        simp only [getError]
        simp [*]

/-- C2 witness: the three settlement branches and the chain applied at
concrete errors — a validation-sentinel error, a confirmation-sentinel error,
and a `code: 500` error with no configured tables, whose resolved message is
its own code. -/
theorem claim_C2_witness :
    handleError none (fun _ => .undefined) (.obj [("message", .str ERROR_VALIDATION)])
      = .resolvedSilent
    ∧ handleError none (fun _ => .undefined) (.obj [("message", .str ERROR_CONFIRM)])
      = .resolvedReset
    ∧ handleError none (fun _ => .undefined) (.obj [("code", .num 500)])
      = .rethrown (.obj [("code", .num 500), ("message", .num 500)])
    ∧ getError none (.obj [("code", .num 500)]) = .num 500 := by
  refine ⟨(claim_C2.1 none (fun _ => .undefined)
      (.obj [("message", .str ERROR_VALIDATION)]) (by decide)).1,
    (claim_C2.2.1 none (fun _ => .undefined)
      (.obj [("message", .str ERROR_CONFIRM)]) (by decide)).1, ?_, ?_⟩
  · have h := (claim_C2.2.2.1 none (fun _ => .undefined) (.obj [("code", .num 500)]) rfl rfl).1
    simpa [decorateError, spreadProps, assocSet, getError, defaultEmpty, i18nLookup,
      getKey, assocLookup, truthy, hasValue] using h
  · exact (claim_C2.2.2.2 none (.obj [("code", .num 500)])).2.2.2.1 rfl rfl rfl rfl

/-- C10: every operation reading the form's input collection goes through
`#queryFormInput`, whose results are enabled elements with non-blank names;
validation-group membership implies the same; every name the validation pass
reports belongs to an element that was enabled and named on entry; and payload
assembly is unchanged by dropping disabled or nameless elements up front (they
never contribute a value to the assembled body). -/
theorem claim_C10 :
    (∀ (sel : Option (Field → Bool)) (fs : List Field) (f : Field),
      f ∈ queryFormInput sel fs → f ∈ fs ∧ inputBase f = true)
    ∧ (∀ (g : String) (f : Field), groupMem g f = true → inputBase f = true)
    ∧ (∀ (i18nV : Option (List (String × String))) (fs : List Field) (n : String),
      n ∈ (handleValidationRun i18nV fs).2 →
      ∃ f ∈ fs, f.name = n ∧ f.disabled = false ∧ isNotBlank f.name = true)
    ∧ (∀ (pd : String → Int) (gf : String → Option (JVal → JVal))
        (w : List (String × WithData)) (fs : List Field) (params : List String),
      generateDataAndProps pd gf w (fs.filter inputBase) params
        = generateDataAndProps pd gf w fs params) := by
  refine ⟨fun _ _ _ h => mem_queryFormInput h, ?_, validation_names_from_enabled,
    generate_pre_filter⟩
  intro g f h
  simp only [groupMem, Bool.and_eq_true] at h
  exact h.1.1

/-- C10 witness: the query filter and the reported-name conjuncts applied at a
concrete one-element collection with a blank required field. -/
theorem claim_C10_witness :
    (({ name := "a", required := true } : Field) ∈ ([{ name := "a", required := true }] : List Field)
      ∧ inputBase { name := "a", required := true } = true)
    ∧ ∃ f ∈ ([{ name := "a", required := true }] : List Field),
        f.name = "a" ∧ f.disabled = false ∧ isNotBlank f.name = true :=
  ⟨claim_C10.1 none [{ name := "a", required := true }] { name := "a", required := true }
      (by decide),
   claim_C10.2.2.1 none [{ name := "a", required := true }] "a" (by decide)⟩

end AjaxFormVerif
